import Mathlib

/-!
Shallow embedding of the benchmarking subsystem of the repository
(`src/backend/app/services/benchmarking.py`, class `BenchmarkingSystem`).

Modelling decisions:
- Python floats are modelled as exact rationals (`ℚ`); the float literals
  `0.98`, `0.1`, `0.01`, … of the source become the rationals `98/100`, `1/10`,
  `1/100`, ….
- A metric dictionary (`Dict[str, Any]` holding numeric metric values) is a
  `List (String × ℚ)`; Python's `d.get(k, default)` is `mget`.
- `time.time()` and `datetime.now()` are passed in as explicit arguments
  (`now : ℕ` for the integer epoch second used in ids and timestamps,
  `elapsed : ℚ` for `time.time() - start_time`); the registry itself performs
  no I/O.
- In-place mutation of a test dict inside `self.tests` becomes explicit state
  passing: each operation returns the new list of tests together with its
  Python return value.  A Python exception escaping an operation is an
  explicit `raised` outcome; mutations performed before the raise persist,
  exactly as they do on the Python dict.
- A test dict is created with keys `ai_results = None` / `human_results = None`
  and without the keys `ai_completed_at` / `human_completed_at` / `comparison`;
  both "value None" and "key absent" are modelled as `none` (every read in the
  source treats them identically via `dict.get` with a falsy default, except
  `_calculate_comparison`, which calls `.get` *on* the stored value and hence
  raises `AttributeError` when it is `None`; the model keeps that distinction
  in `calculate_comparison`).
-/

namespace Benchmarking

/-- A metric record: a Python dict from metric names to numbers. -/
abbrev Metric := List (String × ℚ)

/-- Python `d.get(k)` on a metric dict: `some` value if the key is present. -/
def mlookup (m : Metric) (k : String) : Option ℚ :=
  (m.find? (fun p => p.1 == k)).map (fun p => p.2)

/-- Python `d.get(k, default)` on a metric dict. -/
def mget (m : Metric) (k : String) (d : ℚ) : ℚ :=
  (mlookup m k).getD d

/-- The value stored into `test["ai_results"]` by `run_ai_benchmark`: either a
numeric metric dict, or — for an unrecognized `test_type` — the dict
`{"error": "Unknown test type"}`. -/
inductive AiOutcome where
  | metrics (m : Metric)
  | unknownType
deriving DecidableEq

/-- Numeric view of a stored AI result, as read by `_calculate_comparison`.
The `{"error": "Unknown test type"}` dict contains no numeric metric key, so
every `.get(k, default)` the source performs on it returns the default; the
empty metric dict reproduces exactly those reads. -/
def AiOutcome.asMetric : AiOutcome → Metric
  | .metrics m => m
  | .unknownType => []

/-- The `accuracy_comparison` sub-dict of a comparison. -/
structure AccuracyComparison where
  ai : ℚ
  human : ℚ
  winner : String
deriving DecidableEq

/-- The `cost_comparison` sub-dict of a comparison. -/
structure CostComparison where
  ai_cost : ℚ
  human_cost : ℚ
  savings : ℚ
deriving DecidableEq

/-- The comparison dict built by `_calculate_comparison`. -/
structure Comparison where
  speed_advantage : String
  speed_multiplier : ℚ
  accuracy_comparison : AccuracyComparison
  cost_comparison : CostComparison
  overall_winner : String
deriving DecidableEq

/-- One benchmark test record, as created by `create_benchmark_test` and
mutated by `run_ai_benchmark` / `record_human_results`. -/
structure BenchTest where
  test_id : String
  test_type : String
  scenario : String
  complexity : String
  created_at : ℕ
  status : String
  ai_results : Option AiOutcome
  ai_completed_at : Option ℕ
  human_results : Option Metric
  human_completed_at : Option ℕ
  comparison : Option Comparison
deriving DecidableEq

/-- Python exceptions the embedded operations can raise. -/
inductive PyError where
  | attributeError
deriving DecidableEq

/-- `create_benchmark_test(test_type, scenario, complexity)`: appends a fresh
test record and returns it.  The id is `f"bench_{int(time.time())}"`, so it is
a pure function of the current epoch second `now`. -/
def create_benchmark_test (tests : List BenchTest) (now : ℕ)
    (test_type : String) (scenario : String) (complexity : String) :
    List BenchTest × BenchTest :=
  let test : BenchTest :=
    { test_id := "bench_" ++ toString now
      test_type := test_type
      scenario := scenario
      complexity := complexity
      created_at := now
      status := "pending"
      ai_results := none
      ai_completed_at := none
      human_results := none
      human_completed_at := none
      comparison := none }
  (tests ++ [test], test)

/-- `_get_test(test_id)`: first test in the list with the given id, else None. -/
def get_test (tests : List BenchTest) (test_id : String) : Option BenchTest :=
  tests.find? (fun t => t.test_id == test_id)

/-- Mutation of the dict returned by `_get_test` inside `self.tests`: updates
the first test with the given id (the one `_get_test` aliases), leaving the
rest of the list untouched. -/
def updateFirst (tests : List BenchTest) (test_id : String)
    (f : BenchTest → BenchTest) : List BenchTest :=
  match tests with
  | [] => []
  | t :: rest =>
    if t.test_id == test_id then f t :: rest
    else t :: updateFirst rest test_id f

/-- The simulated AI result built inside `run_ai_benchmark`, keyed on
`test["test_type"]`; `time_taken` is `time.time() - start_time`. -/
def simulateAi (test_type : String) (elapsed : ℚ) : AiOutcome :=
  if test_type = "tax_preparation" then
    .metrics [("time_taken", elapsed), ("accuracy_score", 98/100),
      ("completeness", 1), ("optimizations_found", 12), ("errors", 0),
      ("tax_saved", 8500)]
  else if test_type = "audit_defense" then
    .metrics [("time_taken", elapsed), ("response_quality", 95/100),
      ("legal_citations", 15), ("strategy_completeness", 97/100),
      ("estimated_success_rate", 82/100)]
  else if test_type = "research" then
    .metrics [("time_taken", elapsed), ("sources_found", 23),
      ("relevance_score", 94/100), ("depth_of_analysis", 96/100)]
  else .unknownType

/-- Python return value of `run_ai_benchmark`: the `{"error": "Test not
found"}` dict, or the (possibly error) result dict that was also stored. -/
inductive AiRunReturn where
  | notFound
  | result (r : AiOutcome)
deriving DecidableEq

/-- `run_ai_benchmark(test_id, ai_agents)`: looks the test up, builds the
simulated result, stores it in `ai_results` (unconditionally, overwriting any
previous value) together with `ai_completed_at`, and returns it. -/
def run_ai_benchmark (tests : List BenchTest) (test_id : String)
    (elapsed : ℚ) (now : ℕ) : List BenchTest × AiRunReturn :=
  match get_test tests test_id with
  | none => (tests, .notFound)
  | some t =>
    let r := simulateAi t.test_type elapsed
    (updateFirst tests test_id
      (fun u => { u with ai_results := some r, ai_completed_at := some now }),
     .result r)

/-- `_calculate_comparison(test)`: reads `test["ai_results"]` and
`test["human_results"]` and builds the comparison dict.  When either stored
value is `None`, the first `.get` on it raises `AttributeError`
(`None` has no attribute `get`). -/
def calculate_comparison (test : BenchTest) : Except PyError Comparison :=
  match test.ai_results, test.human_results with
  | some aiR, some human =>
    let ai := aiR.asMetric
    .ok
      { speed_advantage :=
          if mget ai "time_taken" 0 < mget human "time_taken" 999 then "AI"
          else "Human"
        speed_multiplier :=
          mget human "time_taken" 1 / max (mget ai "time_taken" 1) (1/10)
        accuracy_comparison :=
          { ai := mget ai "accuracy_score" 0
            human := mget human "accuracy_score" 0
            winner :=
              if mget ai "accuracy_score" 0 > mget human "accuracy_score" 0
              then "AI" else "Human" }
        cost_comparison :=
          { ai_cost := mget ai "time_taken" 0 * (1/100)
            human_cost := mget human "time_taken" 0 / 3600 * 150
            savings := mget human "time_taken" 0 / 3600 * 150
              - mget ai "time_taken" 0 * (1/100) }
        overall_winner := "AI" }
  | _, _ => .error .attributeError

/-- Python outcome of `record_human_results`: the not-found error dict, an
escaping exception, or the returned comparison. -/
inductive HumanRecReturn where
  | notFound
  | raised (e : PyError)
  | ok (c : Comparison)
deriving DecidableEq

/-- `record_human_results(test_id, human_results)`: looks the test up, stores
`human_results` / `human_completed_at` and sets `status = "completed"`
(unconditionally, overwriting any previous values), then computes and stores
the comparison.  If `_calculate_comparison` raises (no AI result yet), the
mutations already performed persist and the exception escapes: `comparison`
keeps its previous value. -/
def record_human_results (tests : List BenchTest) (test_id : String)
    (human : Metric) (now : ℕ) : List BenchTest × HumanRecReturn :=
  match get_test tests test_id with
  | none => (tests, .notFound)
  | some t =>
    let t' := { t with human_results := some human,
                       human_completed_at := some now,
                       status := "completed" }
    match calculate_comparison t' with
    | .error e => (updateFirst tests test_id (fun _ => t'), .raised e)
    | .ok c =>
      (updateFirst tests test_id (fun _ => { t' with comparison := some c }),
       .ok c)

/-- `t.get("comparison", {}).get("overall_winner") == "AI"` in
`get_leaderboard`: a test without a comparison never counts as an AI win. -/
def aiWon (t : BenchTest) : Bool :=
  match t.comparison with
  | some c => c.overall_winner == "AI"
  | none => false

/-- `t.get("comparison", {}).get("cost_comparison", {}).get("savings", 0)`. -/
def compSavings (t : BenchTest) : ℚ :=
  match t.comparison with
  | some c => c.cost_comparison.savings
  | none => 0

/-- `t.get("comparison", {}).get("speed_multiplier", 0)`. -/
def compSpeedMult (t : BenchTest) : ℚ :=
  match t.comparison with
  | some c => c.speed_multiplier
  | none => 0

/-- The leaderboard summary dict.  The source formats
`average_speed_improvement` as the string `f"{avg:.1f}x faster"`; the model
keeps the underlying number `avg`. -/
structure Leaderboard where
  total_tests : ℕ
  ai_wins : ℕ
  human_wins : ℕ
  ai_win_rate : ℚ
  average_speed_improvement : ℚ
  total_cost_savings : ℚ
deriving DecidableEq

/-- `get_leaderboard()`: folds over all tests.  `human_wins` is
`len(self.tests) - ai_wins` (Python int subtraction; `ai_wins ≤ len(tests)`
always holds, so `ℕ` subtraction agrees). -/
def get_leaderboard (tests : List BenchTest) : Leaderboard :=
  let ai_wins := (tests.filter aiWon).length
  let withComp := tests.filter (fun t => t.comparison.isSome)
  { total_tests := tests.length
    ai_wins := ai_wins
    human_wins := tests.length - ai_wins
    ai_win_rate := (ai_wins : ℚ) / ((max tests.length 1 : ℕ) : ℚ)
    average_speed_improvement :=
      (withComp.map compSpeedMult).sum / ((max withComp.length 1 : ℕ) : ℚ)
    total_cost_savings := (tests.map compSavings).sum }

/-- `get_all_tests()`: returns the list of tests as is. -/
def get_all_tests (tests : List BenchTest) : List BenchTest := tests

/-- One externally invokable mutating operation of the registry, with its
clock inputs made explicit. -/
inductive Op where
  | create (now : ℕ) (test_type scenario complexity : String)
  | runAi (test_id : String) (elapsed : ℚ) (now : ℕ)
  | recordHuman (test_id : String) (m : Metric) (now : ℕ)
deriving DecidableEq

/-- State transition of the registry under one operation. -/
def step (tests : List BenchTest) (op : Op) : List BenchTest :=
  match op with
  | .create now ty scen compl => (create_benchmark_test tests now ty scen compl).1
  | .runAi id e now => (run_ai_benchmark tests id e now).1
  | .recordHuman id m now => (record_human_results tests id m now).1

/-- Registry state reached from the empty registry by a sequence of
operations. -/
def runOps (ops : List Op) : List BenchTest :=
  ops.foldl step []

/-! Concrete sample values used to instantiate the theorems below. -/

/-- A test with both results present: AI took 1s with accuracy 1/2, the human
took 2s with accuracy 1/2. -/
def tSample : BenchTest :=
  { test_id := "bench_1", test_type := "tax_preparation", scenario := "s"
    complexity := "high", created_at := 1, status := "completed"
    ai_results := some (.metrics [("time_taken", 1), ("accuracy_score", 1/2)])
    ai_completed_at := some 2
    human_results := some [("time_taken", 2), ("accuracy_score", 1/2)]
    human_completed_at := some 3, comparison := none }

/-- The comparison `_calculate_comparison` produces for `tSample`. -/
def cSample : Comparison :=
  { speed_advantage := "AI", speed_multiplier := 2
    accuracy_comparison := { ai := 1/2, human := 1/2, winner := "Human" }
    cost_comparison := { ai_cost := 1/100, human_cost := 1/12
                         savings := 1/12 - 1/100 }
    overall_winner := "AI" }

/-- Registry holding a single freshly created test (epoch second 100). -/
def tests_C1 : List BenchTest :=
  (create_benchmark_test [] 100 "tax_preparation" "scn" "high").1

/-- Recording a human result on the fresh test of `tests_C1`, whose
`ai_results` is still `None`. -/
def res_C1 : List BenchTest × HumanRecReturn :=
  record_human_results tests_C1 "bench_100" [("time_taken", 10)] 101

/-- Two `create_benchmark_test` calls landing in the same epoch second. -/
def s_C2a : List BenchTest × BenchTest :=
  create_benchmark_test [] 1000 "tax_preparation" "a" "high"

/-- Second creation during the same epoch second as `s_C2a`. -/
def s_C2b : List BenchTest × BenchTest :=
  create_benchmark_test s_C2a.1 1000 "research" "b" "low"

/-- Create a test, run the AI, then record a human result twice with
different metric values. -/
def ops_C3 : List Op :=
  [.create 0 "tax_preparation" "s" "high",
   .runAi "bench_0" 5 1,
   .recordHuman "bench_0" [("time_taken", 100), ("accuracy_score", 1)] 2,
   .recordHuman "bench_0" [("time_taken", 7), ("accuracy_score", 0)] 3]

/-- Create a test and record a human result before any AI result exists. -/
def ops_C4 : List Op :=
  [.create 0 "tax_preparation" "s" "high",
   .recordHuman "bench_0" [("time_taken", 10)] 1]

/-- A freshly created test (epoch second 7), no results yet. -/
def tFresh : BenchTest :=
  { test_id := "bench_7", test_type := "tax_preparation", scenario := "s"
    complexity := "high", created_at := 7, status := "pending"
    ai_results := none, ai_completed_at := none, human_results := none
    human_completed_at := none, comparison := none }

/-- A test whose status is already "completed". -/
def tCompleted : BenchTest :=
  { test_id := "bench_9", test_type := "research", scenario := "s"
    complexity := "high", created_at := 9, status := "completed"
    ai_results := some (.metrics [("time_taken", 1)])
    ai_completed_at := some 9
    human_results := some [("time_taken", 4)]
    human_completed_at := some 10, comparison := none }

/-- The per-test invariant actually maintained by the code: status is
"completed" exactly when a human result has been recorded, and status is
always one of "pending" / "completed". -/
def InvT (t : BenchTest) : Prop :=
  (t.status = "completed" ↔ t.human_results.isSome = true) ∧
  (t.status = "pending" ∨ t.status = "completed")

/-! Theorems. -/

/-- C5: for every pair of input metric records, the comparison computed by
`_calculate_comparison` has `overall_winner = "AI"`, independent of the
speed, accuracy and cost sub-comparisons. -/
theorem C5_overall_winner_always_AI (t : BenchTest) (c : Comparison)
    (h : calculate_comparison t = .ok c) : c.overall_winner = "AI" := by
  cases hai : t.ai_results with
  | none => simp [calculate_comparison, hai] at h
  | some aiR =>
    cases hh : t.human_results with
    | none => simp [calculate_comparison, hai, hh] at h
    | some hm =>
      simp [calculate_comparison, hai, hh] at h
      rw [← h]

/-- Witness for C5 at the concrete test `tSample`. -/
theorem C5_witness :
    calculate_comparison tSample = .ok cSample ∧ cSample.overall_winner = "AI" :=
  ⟨by simp [calculate_comparison, tSample, cSample, mget, mlookup,
      AiOutcome.asMetric]; norm_num,
   C5_overall_winner_always_AI tSample cSample
    (by simp [calculate_comparison, tSample, cSample, mget, mlookup,
        AiOutcome.asMetric]; norm_num)⟩

/-- C1 (code behavior at the failing input): recording a human result on a
test whose `ai_results` is still `None` raises `AttributeError` out of
`_calculate_comparison` — not an `IncompleteStateError` — and does so only
after `human_results` has been set, `human_completed_at` stamped and
`status` flipped to "completed"; no comparison is stored. -/
theorem C1_crash_after_mutation :
    res_C1.2 = .raised .attributeError ∧
    get_test res_C1.1 "bench_100" = some
      { test_id := "bench_100", test_type := "tax_preparation"
        scenario := "scn", complexity := "high", created_at := 100
        status := "completed", ai_results := none, ai_completed_at := none
        human_results := some [("time_taken", 10)]
        human_completed_at := some 101, comparison := none } := by
  decide

/-- C2 (code behavior at the failing input): two `create_benchmark_test`
calls during the same epoch second both receive the id "bench_1000", so the
stored test ids are not pairwise distinct. -/
theorem C2_id_collision :
    s_C2b.2.test_id = s_C2a.2.test_id ∧
    s_C2b.1.map (fun t => t.test_id) = ["bench_1000", "bench_1000"] := by
  decide

/-- Counterexample to C3 as stated: after the AI result and a first human
result are recorded, a second `record_human_results` call replaces the stored
`human_results` with the newly supplied metrics instead of keeping the first
value. -/
theorem C3_counterexample :
    (runOps (ops_C3.take 3)).map (fun t => t.human_results) =
      [some [("time_taken", 100), ("accuracy_score", 1)]] ∧
    (runOps ops_C3).map (fun t => t.human_results) =
      [some [("time_taken", 7), ("accuracy_score", 0)]] := by
  decide

/-- Counterexample to C4 as stated: recording a human result on a test that
has no AI result yet leaves the registry in a reachable state whose only test
has `status = "completed"` while `ai_results` is still absent. -/
theorem C4_counterexample :
    (runOps ops_C4).map (fun t => (t.status, t.ai_results, t.human_results)) =
      [("completed", none, some [("time_taken", 10)])] := by
  decide

/-- Splitting a list by a Boolean predicate partitions its length. -/
lemma length_filter_add (l : List BenchTest) (p : BenchTest → Bool) :
    (l.filter p).length + (l.filter (fun a => !(p a))).length = l.length := by
  induction l with
  | nil => simp
  | cons a l ih =>
    by_cases h : p a = true <;> simp [List.filter_cons, h, ← ih] <;> omega

/-- C6: the leaderboard's `human_wins` is `total_tests - ai_wins` with
`ai_wins` counting the tests whose comparison names "AI" as overall winner;
hence `human_wins` counts every test that does not have an AI-winning
comparison, which includes every test without a comparison at all. -/
theorem C6_human_wins_formula (tests : List BenchTest) :
    (get_leaderboard tests).human_wins =
      (get_leaderboard tests).total_tests - (get_leaderboard tests).ai_wins ∧
    (get_leaderboard tests).ai_wins = (tests.filter aiWon).length ∧
    (get_leaderboard tests).human_wins =
      (tests.filter (fun t => !(aiWon t))).length ∧
    (tests.filter (fun t => t.comparison.isNone)).length ≤
      (get_leaderboard tests).human_wins := by
  have hsplit := length_filter_add tests aiWon
  have hmono : (tests.filter (fun t => t.comparison.isNone)).length ≤
      (tests.filter (fun t => !(aiWon t))).length := by
    rw [← List.countP_eq_length_filter, ← List.countP_eq_length_filter]
    apply List.countP_mono_left
    intro t _ hnone
    cases hcomp : t.comparison with
    | none => simp [aiWon, hcomp]
    | some c => simp [hcomp] at hnone
  refine ⟨rfl, rfl, ?_, ?_⟩
  · show tests.length - (tests.filter aiWon).length = _
    omega
  · show _ ≤ tests.length - (tests.filter aiWon).length
    omega

/-- C9: the leaderboard's AI win rate is `ai_wins / max(total_tests, 1)`,
always lies in [0, 1], and equals `ai_wins / total_tests` when at least one
test exists. -/
theorem C9_ai_win_rate (tests : List BenchTest) :
    (get_leaderboard tests).ai_win_rate =
      ((get_leaderboard tests).ai_wins : ℚ) /
        ((max (get_leaderboard tests).total_tests 1 : ℕ) : ℚ) ∧
    0 ≤ (get_leaderboard tests).ai_win_rate ∧
    (get_leaderboard tests).ai_win_rate ≤ 1 ∧
    (0 < (get_leaderboard tests).total_tests →
      (get_leaderboard tests).ai_win_rate =
        ((get_leaderboard tests).ai_wins : ℚ) /
          ((get_leaderboard tests).total_tests : ℚ)) := by
  have ha : (tests.filter aiWon).length ≤ tests.length :=
    List.length_filter_le _ _
  refine ⟨rfl, ?_, ?_, ?_⟩
  · show (0:ℚ) ≤ ((tests.filter aiWon).length : ℚ) /
        ((max tests.length 1 : ℕ) : ℚ)
    positivity
  · show ((tests.filter aiWon).length : ℚ) /
        ((max tests.length 1 : ℕ) : ℚ) ≤ 1
    apply div_le_one_of_le₀
    · exact_mod_cast le_trans ha (Nat.le_max_left _ _)
    · positivity
  · intro hpos
    show ((tests.filter aiWon).length : ℚ) /
        ((max tests.length 1 : ℕ) : ℚ) =
      ((tests.filter aiWon).length : ℚ) / (tests.length : ℚ)
    have hmax : max tests.length 1 = tests.length := by
      have : 0 < tests.length := hpos
      omega
    rw [hmax]

/-- Witness for C9: with one completed-looking test the rate equals
`ai_wins / total_tests`. -/
theorem C9_witness :
    (get_leaderboard [tCompleted]).ai_win_rate =
      ((get_leaderboard [tCompleted]).ai_wins : ℚ) /
        ((get_leaderboard [tCompleted]).total_tests : ℚ) :=
  (C9_ai_win_rate [tCompleted]).2.2.2 (by decide)

/-- C10: an unknown test id makes both result-recording operations return
the "Test not found" error dict and leave the registry entirely unchanged. -/
theorem C10_not_found_unchanged (tests : List BenchTest) (id : String)
    (e : ℚ) (now : ℕ) (m : Metric) (now2 : ℕ)
    (h : ∀ t ∈ tests, ¬ t.test_id = id) :
    run_ai_benchmark tests id e now = (tests, .notFound) ∧
    record_human_results tests id m now2 = (tests, .notFound) := by
  have hg : get_test tests id = none := by
    apply List.find?_eq_none.mpr
    intro t ht
    simpa using h t ht
  constructor <;> simp [run_ai_benchmark, record_human_results, hg]

/-- Witness for C10 on a registry holding the single test "bench_100". -/
theorem C10_witness :
    run_ai_benchmark tests_C1 "nope" 1 2 = (tests_C1, .notFound) ∧
    record_human_results tests_C1 "nope" [] 3 = (tests_C1, .notFound) :=
  C10_not_found_unchanged tests_C1 "nope" 1 2 [] 3 (by decide)

/-- C7: whenever both sides carry a nonnegative `time_taken`, the computed
`speed_multiplier` is exactly `humanTime / max(aiTime, 1/10)` and is
nonnegative. -/
theorem C7_speed_multiplier_formula (t : BenchTest) (ai human : Metric)
    (c : Comparison) (aT hT : ℚ)
    (hai : t.ai_results = some (.metrics ai))
    (hh : t.human_results = some human)
    (ha : mlookup ai "time_taken" = some aT)
    (hb : mlookup human "time_taken" = some hT)
    (han : 0 ≤ aT) (hhn : 0 ≤ hT)
    (hc : calculate_comparison t = .ok c) :
    c.speed_multiplier = hT / max aT (1/10) ∧ 0 ≤ c.speed_multiplier := by
  simp only [calculate_comparison, hai, hh, Except.ok.injEq] at hc
  have hm : c.speed_multiplier = hT / max aT (1/10) := by
    rw [← hc]
    simp [AiOutcome.asMetric, mget, ha, hb]
  refine ⟨hm, ?_⟩
  rw [hm]
  apply div_nonneg hhn
  calc (0:ℚ) ≤ 1/10 := by norm_num
    _ ≤ max aT (1/10) := le_max_right _ _

/-- Witness for C7 at the concrete test `tSample`. -/
theorem C7_witness :
    cSample.speed_multiplier = 2 / max 1 (1/10) ∧
    0 ≤ cSample.speed_multiplier :=
  C7_speed_multiplier_formula tSample
    [("time_taken", 1), ("accuracy_score", 1/2)]
    [("time_taken", 2), ("accuracy_score", 1/2)] cSample 1 2
    rfl rfl rfl rfl (by norm_num) (by norm_num)
    (by simp [calculate_comparison, tSample, cSample, mget, mlookup,
        AiOutcome.asMetric]; norm_num)

/-- C8: ties favor the human: the computed `speed_advantage` is "AI" exactly
when the AI strictly undercuts the human's `time_taken`, and the accuracy
winner is "AI" exactly when the AI's `accuracy_score` is strictly greater;
on equality both come out "Human". -/
theorem C8_tie_break (t : BenchTest) (ai human : Metric) (c : Comparison)
    (aT hT aA hA : ℚ)
    (hai : t.ai_results = some (.metrics ai))
    (hh : t.human_results = some human)
    (ht1 : mlookup ai "time_taken" = some aT)
    (ht2 : mlookup human "time_taken" = some hT)
    (ha1 : mlookup ai "accuracy_score" = some aA)
    (ha2 : mlookup human "accuracy_score" = some hA)
    (hc : calculate_comparison t = .ok c) :
    (c.speed_advantage = "AI" ↔ aT < hT) ∧
    (aT = hT → c.speed_advantage = "Human") ∧
    (c.accuracy_comparison.winner = "AI" ↔ hA < aA) ∧
    (aA = hA → c.accuracy_comparison.winner = "Human") := by
  simp only [calculate_comparison, hai, hh, Except.ok.injEq] at hc
  have hs : c.speed_advantage = if aT < hT then "AI" else "Human" := by
    rw [← hc]
    simp [AiOutcome.asMetric, mget, ht1, ht2]
  have hw : c.accuracy_comparison.winner = if hA < aA then "AI" else "Human" := by
    rw [← hc]
    simp [AiOutcome.asMetric, mget, ha1, ha2]
  refine ⟨?_, ?_, ?_, ?_⟩
  · rw [hs]
    by_cases hlt : aT < hT <;> simp [hlt]
  · intro heq
    rw [hs, if_neg (by simp [heq])]
  · rw [hw]
    by_cases hlt : hA < aA <;> simp [hlt]
  · intro heq
    rw [hw, if_neg (by simp [heq])]

/-- Witness for C8 at the concrete test `tSample` (equal accuracy scores, so
the accuracy winner is "Human"). -/
theorem C8_witness :
    (cSample.speed_advantage = "AI" ↔ (1:ℚ) < 2) ∧
    ((1:ℚ) = 2 → cSample.speed_advantage = "Human") ∧
    (cSample.accuracy_comparison.winner = "AI" ↔ (1:ℚ)/2 < 1/2) ∧
    ((1:ℚ)/2 = 1/2 → cSample.accuracy_comparison.winner = "Human") :=
  C8_tie_break tSample
    [("time_taken", 1), ("accuracy_score", 1/2)]
    [("time_taken", 2), ("accuracy_score", 1/2)] cSample 1 2 (1/2) (1/2)
    rfl rfl rfl rfl rfl rfl
    (by simp [calculate_comparison, tSample, cSample, mget, mlookup,
        AiOutcome.asMetric]; norm_num)

/-- Updating the first test with a given id keeps it the first test found
under that id, provided the update preserves the id. -/
lemma get_test_updateFirst (tests : List BenchTest) (id : String)
    (f : BenchTest → BenchTest) (t : BenchTest)
    (hfind : get_test tests id = some t) (hid : (f t).test_id = t.test_id) :
    get_test (updateFirst tests id f) id = some (f t) := by
  induction tests with
  | nil => simp [get_test] at hfind
  | cons hd rest ih =>
    by_cases h : (hd.test_id == id) = true
    · have hfind2 : List.find? (fun u => u.test_id == id) (hd :: rest) =
          some t := hfind
      rw [@List.find?_cons_of_pos BenchTest (fun u => u.test_id == id) hd
        rest h] at hfind2
      have hht : hd = t := Option.some.inj hfind2
      subst hht
      have hstep : updateFirst (hd :: rest) id f = f hd :: rest := by
        simp [updateFirst, h]
      show List.find? (fun u => u.test_id == id)
          (updateFirst (hd :: rest) id f) = some (f hd)
      rw [hstep, @List.find?_cons_of_pos BenchTest (fun u => u.test_id == id)
        (f hd) rest (by show ((f hd).test_id == id) = true; rw [hid]; exact h)]
    · have hfind2 : List.find? (fun u => u.test_id == id) (hd :: rest) =
          some t := hfind
      rw [@List.find?_cons_of_neg BenchTest (fun u => u.test_id == id) hd
        rest h] at hfind2
      have hrec := ih hfind2
      have hstep : updateFirst (hd :: rest) id f =
          hd :: updateFirst rest id f := by
        simp [updateFirst, h]
      show List.find? (fun u => u.test_id == id)
          (updateFirst (hd :: rest) id f) = some (f t)
      rw [hstep, @List.find?_cons_of_neg BenchTest (fun u => u.test_id == id)
        hd (updateFirst rest id f) h]
      exact hrec

/-- Every element of an updated list is an old element or the image of an
old element under the update. -/
lemma mem_updateFirst {tests : List BenchTest} {id : String}
    {f : BenchTest → BenchTest} {u : BenchTest}
    (hu : u ∈ updateFirst tests id f) : u ∈ tests ∨ ∃ t ∈ tests, u = f t := by
  induction tests with
  | nil => simp [updateFirst] at hu
  | cons hd rest ih =>
    by_cases h : (hd.test_id == id) = true
    · simp only [updateFirst, h, if_true] at hu
      rcases List.mem_cons.mp hu with hu | hu
      · right; exact ⟨hd, List.mem_cons_self _ _, hu⟩
      · left; exact List.mem_cons_of_mem _ hu
    · simp only [updateFirst, h, if_false, Bool.false_eq_true] at hu
      rcases List.mem_cons.mp hu with hu | hu
      · left; exact hu ▸ List.mem_cons_self _ _
      · rcases ih hu with h1 | ⟨t, ht, he⟩
        · left; exact List.mem_cons_of_mem _ h1
        · right; exact ⟨t, List.mem_cons_of_mem _ ht, he⟩

/-- Position-wise view of `updateFirst`: each position holds either the old
element or its image under the update. -/
lemma updateFirst_getElem? (tests : List BenchTest) (id : String)
    (f : BenchTest → BenchTest) (i : ℕ) :
    (updateFirst tests id f)[i]? = tests[i]? ∨
    ∃ t, tests[i]? = some t ∧ (updateFirst tests id f)[i]? = some (f t) := by
  induction tests generalizing i with
  | nil => left; simp [updateFirst]
  | cons hd rest ih =>
    by_cases h : (hd.test_id == id) = true
    · cases i with
      | zero =>
        right
        exact ⟨hd, by simp, by simp [updateFirst, h]⟩
      | succ n => left; simp [updateFirst, h]
    · cases i with
      | zero => left; simp [updateFirst, h]
      | succ n =>
        rcases ih n with h1 | ⟨t, ht, h2⟩
        · left; simpa [updateFirst, h] using h1
        · right
          exact ⟨t, by simpa using ht, by simpa [updateFirst, h] using h2⟩

/-- Each mutating operation preserves the per-test invariant `InvT`. -/
lemma step_preserves_inv (tests : List BenchTest) (op : Op)
    (h : ∀ t ∈ tests, InvT t) : ∀ t ∈ step tests op, InvT t := by
  intro t ht
  cases op with
  | create now ty scen compl =>
    simp only [step, create_benchmark_test] at ht
    rcases List.mem_append.mp ht with ht | ht
    · exact h t ht
    · rcases List.mem_singleton.mp ht with rfl
      refine ⟨?_, Or.inl rfl⟩
      constructor
      · intro hx
        have hx' : ("pending" : String) = "completed" := hx
        exact absurd hx' (by decide)
      · intro hx
        have hx' : (none : Option Metric).isSome = true := hx
        simp at hx'
  | runAi id e now =>
    cases hg : get_test tests id with
    | none =>
      simp only [step, run_ai_benchmark, hg] at ht
      exact h t ht
    | some t0 =>
      simp only [step, run_ai_benchmark, hg] at ht
      rcases mem_updateFirst ht with hmem | ⟨u, hu, rfl⟩
      · exact h t hmem
      · exact h u hu
  | recordHuman id m now =>
    cases hg : get_test tests id with
    | none =>
      simp only [step, record_human_results, hg] at ht
      exact h t ht
    | some t0 =>
      simp only [step, record_human_results, hg] at ht
      cases hc : calculate_comparison
          { t0 with human_results := some m, human_completed_at := some now,
                    status := "completed" } with
      | error err =>
        rw [hc] at ht
        rcases mem_updateFirst ht with hmem | ⟨u, hu, rfl⟩
        · exact h t hmem
        · exact ⟨by simp, Or.inr rfl⟩
      | ok c =>
        rw [hc] at ht
        rcases mem_updateFirst ht with hmem | ⟨u, hu, rfl⟩
        · exact h t hmem
        · exact ⟨by simp, Or.inr rfl⟩

/-- The invariant `InvT` holds along every fold of operations. -/
lemma foldl_inv (ops : List Op) : ∀ tests, (∀ t ∈ tests, InvT t) →
    ∀ t ∈ ops.foldl step tests, InvT t := by
  induction ops with
  | nil => intro tests h; simpa using h
  | cons op rest ih =>
    intro tests h t ht
    exact ih (step tests op) (step_preserves_inv tests op h) t ht

/-- If position `i` holds a "completed" test, it still reads "completed"
after `updateFirst` by any update that either stamps "completed" or leaves
statuses alone. -/
lemma map_status_updateFirst (tests : List BenchTest) (id : String)
    (f : BenchTest → BenchTest) (i : ℕ) (t : BenchTest)
    (hget : tests[i]? = some t) (hst : t.status = "completed")
    (hf : ∀ u, (f u).status = "completed" ∨ (f u).status = u.status) :
    ((updateFirst tests id f)[i]?).map (fun u => u.status) =
      some "completed" := by
  rcases updateFirst_getElem? tests id f i with h1 | ⟨t1, ht1, h2⟩
  · rw [h1, hget]; simp [hst]
  · rw [hget] at ht1
    cases ht1
    rcases hf t with h | h <;> rw [h2] <;> simp [h, hst]

/-- A test that is already "completed" stays "completed" at its position
under every operation. -/
lemma step_status_at (tests : List BenchTest) (op : Op) (i : ℕ)
    (t : BenchTest) (hget : tests[i]? = some t)
    (hst : t.status = "completed") :
    ((step tests op)[i]?).map (fun u => u.status) = some "completed" := by
  have hi : i < tests.length := by
    by_contra hcon
    push_neg at hcon
    rw [List.getElem?_eq_none hcon] at hget
    cases hget
  cases op with
  | create now ty scen compl =>
    show (((tests ++ [_])[i]?).map (fun u => u.status)) = some "completed"
    rw [List.getElem?_append_left hi, hget]
    simp [hst]
  | runAi id e now =>
    cases hg : get_test tests id with
    | none =>
      simp only [step, run_ai_benchmark, hg]
      rw [hget]; simp [hst]
    | some t0 =>
      simp only [step, run_ai_benchmark, hg]
      exact map_status_updateFirst tests id _ i t hget hst
        (fun u => Or.inr rfl)
  | recordHuman id m now =>
    cases hg : get_test tests id with
    | none =>
      simp only [step, record_human_results, hg]
      rw [hget]; simp [hst]
    | some t0 =>
      simp only [step, record_human_results, hg]
      cases hc : calculate_comparison
          { t0 with human_results := some m, human_completed_at := some now,
                    status := "completed" } with
      | error err =>
        dsimp only
        exact map_status_updateFirst tests id _ i t hget hst
          (fun u => Or.inl rfl)
      | ok c =>
        dsimp only
        exact map_status_updateFirst tests id _ i t hget hst
          (fun u => Or.inl rfl)

/-- C4 amended: in every reachable registry state, a test's status is
"completed" exactly when its human result has been recorded (independently of
whether an AI result exists), statuses only take the values "pending" and
"completed", and a "completed" status never reverts under any further
operation. -/
theorem C4_amended_status_invariant :
    (∀ ops : List Op, ∀ t ∈ runOps ops,
        (t.status = "completed" ↔ t.human_results.isSome = true) ∧
        (t.status = "pending" ∨ t.status = "completed")) ∧
    (∀ (tests : List BenchTest) (op : Op) (i : ℕ) (t : BenchTest),
        tests[i]? = some t → t.status = "completed" →
        ((step tests op)[i]?).map (fun u => u.status) = some "completed") := by
  constructor
  · intro ops t ht
    exact foldl_inv ops [] (by simp) t ht
  · exact step_status_at

/-- Witness for C4: the freshly created test satisfies the invariant, and a
"completed" test stays "completed" across a further operation. -/
theorem C4_witness :
    ((tFresh.status = "completed" ↔ tFresh.human_results.isSome = true) ∧
     (tFresh.status = "pending" ∨ tFresh.status = "completed")) ∧
    ((step [tCompleted] (Op.runAi "nope" 1 2))[0]?).map (fun u => u.status) =
      some "completed" :=
  ⟨C4_amended_status_invariant.1 [Op.create 7 "tax_preparation" "s" "high"]
      tFresh (by decide),
   C4_amended_status_invariant.2 [tCompleted] (Op.runAi "nope" 1 2) 0
      tCompleted (by decide) (by decide)⟩

/-- C3 amended: the result fields are not write-once: whenever the test id is
present, `record_human_results` stores the newly supplied human metrics and
`run_ai_benchmark` stores the freshly simulated AI result, silently replacing
whatever values those fields held before. -/
theorem C3_overwrite (tests : List BenchTest) (id : String) (t : BenchTest)
    (m : Metric) (now : ℕ) (e : ℚ) (now2 : ℕ)
    (hfind : get_test tests id = some t) :
    (get_test (record_human_results tests id m now).1 id).map
        (fun u => u.human_results) = some (some m) ∧
    (get_test (run_ai_benchmark tests id e now2).1 id).map
        (fun u => u.ai_results) = some (some (simulateAi t.test_type e)) := by
  constructor
  · simp only [record_human_results, hfind]
    cases hc : calculate_comparison
        { t with human_results := some m, human_completed_at := some now,
                 status := "completed" } with
    | error err =>
      show (get_test (updateFirst tests id (fun _ =>
          { t with human_results := some m, human_completed_at := some now,
                   status := "completed" })) id).map
          (fun u => u.human_results) = some (some m)
      rw [get_test_updateFirst tests id _ t hfind rfl]
      rfl
    | ok c =>
      show (get_test (updateFirst tests id (fun _ =>
          { t with human_results := some m, human_completed_at := some now,
                   status := "completed", comparison := some c })) id).map
          (fun u => u.human_results) = some (some m)
      rw [get_test_updateFirst tests id _ t hfind rfl]
      rfl
  · simp only [run_ai_benchmark, hfind]
    show (get_test (updateFirst tests id _) id).map
        (fun u => u.ai_results) = some (some (simulateAi t.test_type e))
    rw [get_test_updateFirst tests id _ t hfind rfl]
    rfl

/-- Witness for C3 on the one-test registry `[tFresh]`. -/
theorem C3_witness :
    (get_test (record_human_results [tFresh] "bench_7"
        [("time_taken", 3)] 8).1 "bench_7").map
      (fun u => u.human_results) = some (some [("time_taken", 3)]) ∧
    (get_test (run_ai_benchmark [tFresh] "bench_7" 2 9).1 "bench_7").map
      (fun u => u.ai_results) =
        some (some (simulateAi tFresh.test_type 2)) :=
  C3_overwrite [tFresh] "bench_7" tFresh [("time_taken", 3)] 8 2 9 (by decide)

end Benchmarking
